import Mathlib

/-!
A shallow embedding of `src/dvc/repo/experiments/init.py` — the interactive
`dvc exp init` wizard.

Modelling conventions:
* Python dictionaries become association lists (`Ctx`); key order is
  irrelevant to every property proved here, so an update re-appends the
  entry instead of updating in place.
* The operator's console input is a list of answer lines (a script); a run
  that exhausts the script models a session blocked on input (or an
  operator interrupt / end-of-input).
* Terminal output is a list of events; each output event is tagged with the
  stream it is written to.  Modelled from the spec: the UI surface
  (`dvc.ui`, not under `src/`) exposes `write` (standard output) and
  `error_write` / `error_console` (error-diagnostic stream), matching the
  spec's "Diagnostic/UI surface" description.
* The filesystem consulted by the validators is a function from paths to an
  abstract entry kind.  Modelled from the spec: the params-file loader
  (`dvc.utils.serialize.LOADERS`, not under `src/`) raises
  `FileNotFoundError` on a missing path, `IsADirectoryError` on a
  directory, and either enumerates the file's top-level keys or fails on an
  existing file.
-/

namespace Dvc

/-! ## Dictionaries (`Ctx`) -/

/-- A Python `Dict[str, str]` as an association list. -/
abbrev Ctx := List (String × String)

/-- Python `d.get(key)` / `d[key]`: first entry with the given key. -/
def ctxGet : Ctx → String → Option String
  | [], _ => none
  | (k, v) :: rest, key => if key = k then some v else ctxGet rest key

/-- Python `key in d`. -/
def ctxHas (c : Ctx) (key : String) : Bool :=
  (ctxGet c key).isSome

/-- Python `d.pop(key, None)` (the resulting dictionary). -/
def ctxErase : Ctx → String → Ctx
  | [], _ => []
  | (k, v) :: rest, key => if k = key then ctxErase rest key else (k, v) :: ctxErase rest key

/-- Python `d[key] = v`.  Key order is irrelevant to the proved properties,
so the entry is re-appended rather than updated in place. -/
def ctxSet (c : Ctx) (key v : String) : Ctx :=
  ctxErase c key ++ [(key, v)]

/-- Python `{**a, **b}`. -/
def ctxMerge (a b : Ctx) : Ctx :=
  b.foldl (fun acc p => ctxSet acc p.1 p.2) a

/-! ## Output events -/

/-- Output streams of the process. -/
inductive Stream' where
  | stdout
  | stderr
deriving DecidableEq, Repr

/-- One observable step of the wizard.  `prompt`, `invalidMsg`, `retryMsg`,
`confirmPrompt`, `banner`, `tree` and `stageReview` are all rendered on the
error console (`console=ui.error_console` / `ui.error_write`); `write s t`
is an explicit `ui.write` / `ui.error_write` of `t` on stream `s`;
`validatorCall` records a consultation of the caller-supplied validator
(it is instrumentation, not output). -/
inductive Event where
  | prompt (key : String)
  | invalidMsg (msg : String)
  | retryMsg (msg : String)
  | confirmPrompt
  | banner
  | tree (values : List String)
  | stageReview
  | validatorCall (key : String) (value : Option String)
  | write (s : Stream') (text : String)
deriving DecidableEq, Repr

/-- The stream an event is written to (`none` for instrumentation). -/
def Event.stream : Event → Option Stream'
  | .prompt _ => some .stderr
  | .invalidMsg _ => some .stderr
  | .retryMsg _ => some .stderr
  | .confirmPrompt => some .stderr
  | .banner => some .stderr
  | .tree _ => some .stderr
  | .stageReview => some .stderr
  | .validatorCall _ _ => none
  | .write s _ => some s

/-- The keys of the questions rendered in an event list, in order (one
occurrence per render, so a retried question appears more than once). -/
def promptedOf : List Event → List String
  | [] => []
  | .prompt k :: rest => k :: promptedOf rest
  | _ :: rest => promptedOf rest

/-- Number of renders of the question for `key`. -/
def countPrompt (key : String) (evs : List Event) : Nat :=
  (evs.filter (fun e => decide (e = Event.prompt key))).length

/-! ## Filesystem and params loading -/

/-- What the filesystem holds at a path: a regular file (whose top-level
keys the params loader enumerates, `none` when loading raises), a
directory, or nothing. -/
inductive FSEntry where
  | file (keys : Option (List String))
  | dir
  | missing
deriving DecidableEq, Repr

/-- An abstract filesystem. -/
abbrev FS := String → FSEntry

/-- `loadd_params` (src line 243): load a params file and pair the path with
its top-level keys.  `Except.error` is the uncaught exception case. -/
def loadd_params (fs : FS) (path : String) : Except Unit (String × List String) :=
  match fs path with
  | .file (some keys) => .ok (path, keys)
  | _ => .error ()

/-! ## Prompt processing (rich `Prompt` subclasses, src lines 79-120) -/

/-- Python `str.strip()` (rich's base `process_response` strips the
response).  Implemented over the character list so that it evaluates by
kernel reduction (`String.trim` is defined by well-founded recursion and
does not). -/
def strip (s : String) : String :=
  ⟨((s.data.dropWhile Char.isWhitespace).reverse.dropWhile Char.isWhitespace).reverse⟩

/-- Python `str.lower()` on ASCII letters (rich's `Confirm` lowercases the
answer before matching it against its choices `y`/`n`). -/
def asciiLower (c : Char) : Char :=
  if 65 ≤ c.toNat ∧ c.toNat ≤ 90 then Char.ofNat (c.toNat + 32) else c

/-- Python `str.lower()`. -/
def lower (s : String) : String :=
  ⟨s.data.map asciiLower⟩

/-- The message of `RequiredPrompt.process_response` (src line 86). -/
def requiredMsg : String := "Response required. Please try again."

/-- `process_response` of the prompt class `_prompt` selects for `key`
(src line 128): `RequiredPrompt` for `cmd`, `SkippablePrompt` otherwise.
The base class strips the response; an empty result raises
`InvalidResponse` (modelled as `.error`); a skippable prompt maps the
sentinel `"n"` to `None`. -/
def processResponse (key : String) (value : String) : Except String (Option String) :=
  let ret := strip value
  if ret = "" then .error requiredMsg
  else if key = "cmd" then .ok (some ret)
  else if ret = "n" then .ok none
  else .ok (some ret)

/-- The `while True` loop of rich's `PromptBase.__call__`, driven by the
input script: render the prompt, read one line; an empty line with a
default returns the default unprocessed; otherwise `process_response`
either accepts or prints its message and asks again.  `none` models a
session blocked on input. -/
def askLoop (key : String) (dflt : Option String) :
    List String → Option (Option String × List String × List Event)
  | [] => none
  | value :: rest =>
    if value = "" ∧ dflt.isSome then
      some (dflt, rest, [Event.prompt key])
    else
      match processResponse key value with
      | .ok ret => some (ret, rest, [Event.prompt key])
      | .error msg =>
        match askLoop key dflt rest with
        | none => none
        | some (v, r, e) => some (v, r, Event.prompt key :: Event.invalidMsg msg :: e)

/-- Result of the caller-supplied validator: accept, ask the same key again
(`RetryPrompt`, src line 45), or raise an exception the wizard does not
catch. -/
inductive VResult where
  | ok
  | retry (msg : String)
  | crash
deriving DecidableEq, Repr

/-- A validator: given key and value it returns a verdict plus the lines it
wrote to the error stream. -/
abbrev VFun := String → Option String → VResult × List Event

/-- `_prompt` (src line 123): ask until the validator stops signalling a
retry.  The fuel argument only bounds the recursion; the script shrinks on
every iteration, so `script.length + 1` fuel never runs out before the
script does. -/
def promptOne (fuel : Nat) (key : String) (validator : Option VFun)
    (dflt : Option String) (script : List String) :
    Option (Option String × List String × List Event) :=
  match fuel with
  | 0 => none
  | fuel + 1 =>
    match askLoop key dflt script with
    | none => none
    | some (val, rest, evs) =>
      match validator with
      | none => some (val, rest, evs)
      | some vf =>
        match vf key val with
        | (.ok, ws) => some (val, rest, evs ++ [Event.validatorCall key val] ++ ws)
        | (.retry msg, ws) =>
          match promptOne fuel key validator dflt rest with
          | none => none
          | some (v2, r2, e2) =>
            some (v2, r2,
              evs ++ [Event.validatorCall key val] ++ ws ++ [Event.retryMsg msg] ++ e2)
        | (.crash, _) => none

/-- `_prompts` (src line 143): one `_prompt` per key, in order, each with
`defaults.get(key)` as its default. -/
def promptsMany (validator : Option VFun) (defaults : Ctx) :
    List String → List String →
    Option (List (String × Option String) × List String × List Event)
  | [], script => some ([], script, [])
  | k :: ks, script =>
    match promptOne (script.length + 1) k validator (ctxGet defaults k) script with
    | none => none
    | some (v, rest, evs) =>
      match promptsMany validator defaults ks rest with
      | none => none
      | some (acc, rest2, evs2) => some ((k, v) :: acc, rest2, evs ++ evs2)

/-! ## The caller-supplied validator (`validate_prompts_input`, src line 271) -/

/-- The retry reason printed for a bad `params` answer (src lines 283-286). -/
def paramsRetryMsg (value reason : String) : String :=
  "'" ++ value ++ "' " ++ reason ++ ". Please retry with an existing parameters file."

/-- The warning printed for a `code`/`data` path missing from the workspace
(src lines 289-293). -/
def pathWarnMsg (value : String) : String :=
  "'" ++ value ++ "' does not exist in the workspace. \"exp run\" may fail."

/-- `validate_prompts_input` (src line 271): `None` passes; a `params`
answer must load (`FileNotFoundError` → "does not exist" retry,
`IsADirectoryError` → "is a directory" retry, any other loader failure is
an uncaught exception); a missing `code`/`data` path only warns. -/
def validate_prompts_input (fs : FS) (key : String) (value : Option String) :
    VResult × List Event :=
  match value with
  | none => (.ok, [])
  | some v =>
    if key = "params" then
      match fs v with
      | .missing => (.retry (paramsRetryMsg v "does not exist"), [])
      | .dir => (.retry (paramsRetryMsg v "is a directory"), [])
      | .file none => (.crash, [])
      | .file (some _) => (.ok, [])
    else if key = "code" ∨ key = "data" then
      if fs v = .missing then (.ok, [Event.write .stderr (pathWarnMsg v)])
      else (.ok, [])
    else (.ok, [])

/-! ## The interactive session (`init_interactive`, src line 171) -/

/-- `funcy.compact` on the answer dictionary: drop falsy values (`None` and
the empty string). -/
def compactRet : List (String × Option String) → Ctx
  | [] => []
  | (k, some v) :: rest => if v = "" then compactRet rest else (k, v) :: compactRet rest
  | (_, none) :: rest => compactRet rest

/-- `funcy.compact` on a list: drop falsy elements. -/
def compactList : List (Option String) → List String
  | [] => []
  | some v :: rest => if v = "" then compactList rest else v :: compactList rest
  | none :: rest => compactList rest

/-- Stable insertion into a sorted list (for Python `sorted`). -/
def insertSorted (s : String) : List String → List String
  | [] => [s]
  | t :: rest => if t < s then t :: insertSorted s rest else s :: t :: rest

/-- Python `sorted` on strings. -/
def sortStrings : List String → List String
  | [] => []
  | s :: rest => insertSorted s (sortStrings rest)

/-- `lremove(provided.keys(), ["code", "data", "models", "params"])`
(src line 180): the primary keys not already supplied. -/
def primaryKeys (provided : Ctx) : List String :=
  ["code", "data", "models", "params"].filter (fun k => !(ctxHas provided k))

/-- `lremove(provided.keys(), ["live"] if live else ["metrics", "plots"])`
(src line 181): the secondary keys of the active output mode not already
supplied. -/
def secondaryKeys (provided : Ctx) (live : Bool) : List String :=
  (if live then ["live"] else ["metrics", "plots"]).filter (fun k => !(ctxHas provided k))

/-- The instruction line written with `ui.write` (standard output!) at
src line 207. -/
def enterPathsMsg : String := "Enter the paths for dependencies and outputs of the command."

/-- Src lines 201-205: prompt for `cmd` when the supplied command is falsy
(followed by `ui.write()`, a blank line on standard output), else keep the
supplied command. -/
def cmdStep (defaults : Ctx) (command : Option String) (script : List String) :
    Option (List (String × Option String) × List String × List Event) :=
  if (command.getD "") = "" then
    match promptOne (script.length + 1) "cmd" none (ctxGet defaults "cmd") script with
    | none => none
    | some (v, rest, evs) =>
      some ([("cmd", v)], rest, evs ++ [Event.write Stream'.stdout ""])
  else some ([("cmd", command)], script, [])

/-- Src lines 209-223: the workspace preview tree, shown when `show_tree`
and the merged workspace is non-empty, with `live` dropped when the mode is
not live (unless overridden) and `plots`/`metrics` dropped when it is
(unless overridden); values are sorted. -/
def treeEvents (defaults provided : Ctx) (show_tree live : Bool) : List Event :=
  let workspace := ctxMerge defaults provided
  if show_tree && !workspace.isEmpty then
    let ws1 := if !live && !(ctxHas provided "live") then ctxErase workspace "live" else workspace
    let ws2 := if live && !(ctxHas provided "plots") then ctxErase ws1 "plots" else ws1
    let ws3 := if live && !(ctxHas provided "metrics") then ctxErase ws2 "metrics" else ws2
    [Event.tree (sortStrings (ws3.map Prod.snd))]
  else []

/-- What `init_interactive` produces: the (compacted) answer mapping it
returns, the post-state of the caller's `provided`/`overrides` dictionary
(`cmd` was popped from it, src line 179), the unconsumed input, and the
emitted events. -/
structure ISession where
  ret : Ctx
  provided : Ctx
  rest : List String
  events : List Event
deriving DecidableEq, Repr

/-- `init_interactive` (src line 171).  `none` models a session blocked on
operator input (or an uncaught validator exception). -/
def init_interactive (defaults provided0 : Ctx) (validator : Option VFun)
    (show_tree live : Bool) (script : List String) : Option ISession :=
  let command := ctxGet provided0 "cmd"
  let provided := ctxErase provided0 "cmd"
  let primary := primaryKeys provided
  let secondary := secondaryKeys provided live
  if (command.getD "") = "" ∧ primary.isEmpty ∧ secondary.isEmpty then
    some { ret := [], provided := provided, rest := script, events := [] }
  else
    match cmdStep defaults command script with
    | none => none
    | some (cmdRet, script1, cmdEvs) =>
      match promptsMany validator defaults primary script1 with
      | none => none
      | some (primRet, script2, primEvs) =>
        match promptsMany validator defaults secondary script2 with
        | none => none
        | some (secRet, script3, secEvs) =>
          some {
            ret := compactRet (cmdRet ++ primRet ++ secRet)
            provided := provided
            rest := script3
            events := [Event.banner] ++ cmdEvs
              ++ [Event.write Stream'.stdout enterPathsMsg]
              ++ treeEvents defaults provided show_tree live
              ++ [Event.write Stream'.stderr ""]
              ++ primEvs ++ secEvs }

/-! ## `init` (src line 250) and the commit transaction -/

/-- The pipeline-file collaborator: whether `dvc.yaml` exists and the names
of the stages it holds. -/
structure DvcFile where
  exists_ : Bool
  stages : List String
deriving DecidableEq, Repr

/-- The arguments `init` passes to the stage assembler
(`repo.stage.create`, src line 324). -/
structure Stage where
  name : String
  cmd : String
  deps : List String
  params : List (String × List String)
  metrics_no_cache : List String
  plots_no_cache : List String
  live : Option String
  outs : List String
  checkpoints : List String
  force : Bool
deriving DecidableEq, Repr

/-- The commit side effects (src lines 348-352), in order: write the stage
into the pipeline file without touching the lock file, mark its outputs
ignorable, and register the params file with version control. -/
inductive Effect where
  | dumpStage
  | ignoreOuts
  | trackFile (path : String)
deriving DecidableEq, Repr

/-- The user-facing failures of `init`:
`duplicateStage` is `DuplicateStageName` (src line 238), `aborted` is the
`DvcException("Aborting ...")` raised on a declined confirmation (src line
354), `blocked` models a session stuck on operator input (or an uncaught
validator exception), `assertCmdMissing` is the `assert "cmd" in context`
(src line 315), `paramsLoadFailed` an uncaught loader exception at src
line 320. -/
inductive InitError where
  | duplicateStage
  | aborted
  | blocked
  | assertCmdMissing
  | paramsLoadFailed
deriving DecidableEq, Repr

instance : DecidableEq (Except InitError Stage) := fun a b =>
  match a, b with
  | .ok x, .ok y =>
    if h : x = y then .isTrue (by rw [h]) else .isFalse (by intro hc; cases hc; exact h rfl)
  | .error x, .error y =>
    if h : x = y then .isTrue (by rw [h]) else .isFalse (by intro hc; cases hc; exact h rfl)
  | .ok _, .error _ => .isFalse (by intro hc; cases hc)
  | .error _, .ok _ => .isFalse (by intro hc; cases hc)

/-- Everything observable about one `init` invocation: the returned stage
or the raised error, the commit side effects performed, the emitted
events, the outcome of the final confirmation (when one was asked), and
the post-state of the two caller-owned dictionaries (`none` when the
caller passed no dictionary). -/
structure InitOutcome where
  result : Except InitError Stage
  effects : List Effect
  events : List Event
  confirmed : Option Bool
  defaultsAfter : Option Ctx
  overridesAfter : Option Ctx
deriving DecidableEq, Repr

/-- The message of rich's `Confirm` on an illegal answer. -/
def confirmErrMsg : String := "Please enter Y or N"

/-- Rich's `Confirm.ask` loop (default `True`): empty answer takes the
default, `y`/`n` (stripped, lowercased) answer directly, anything else is
re-asked. -/
def confirmLoop : List String → Option (Bool × List String × List Event)
  | [] => none
  | v :: rest =>
    if v = "" then some (true, rest, [Event.confirmPrompt])
    else
      let s := lower (strip v)
      if s = "y" then some (true, rest, [Event.confirmPrompt])
      else if s = "n" then some (false, rest, [Event.confirmPrompt])
      else
        match confirmLoop rest with
        | none => none
        | some (b, r, e) =>
          some (b, r, Event.confirmPrompt :: Event.invalidMsg confirmErrMsg :: e)

/-- Python `name = name or type` (src line 262). -/
def stageName (name? : Option String) (type_ : String) : String :=
  if (name?.getD "") = "" then type_ else name?.getD ""

/-- Src lines 305-312: in a non-interactive run, suppress `metrics`/`plots`
from the defaults when the output mode is live, and `live` otherwise. -/
def suppressDefaults (d : Ctx) (with_live : Bool) : Ctx :=
  if with_live then ctxErase (ctxErase d "metrics") "plots" else ctxErase d "live"

/-- The text stand-in for the green `Rule` written with `ui.write`
(standard output!) at src line 337. -/
def ruleText : String := "[rule]"

/-- Src lines 314-354: merge the final context, check the `cmd` contract,
load the params file, assemble the stage, and run the confirmation-guarded
commit transaction.  The logging-suppression and change-tracking scopes of
src line 348 have no observable effect in this embedding beyond the commit
effects themselves. -/
def finishInit (fs : FS) (name : String) (interactive force : Bool)
    (defaults2 overrides2 : Ctx) (script : List String) (preEvents : List Event)
    (defaultsAfter overridesAfter : Option Ctx) : InitOutcome :=
  let context := ctxMerge defaults2 overrides2
  if !(ctxHas context "cmd") then
    { result := .error .assertCmdMissing, effects := [], events := preEvents,
      confirmed := none, defaultsAfter := defaultsAfter, overridesAfter := overridesAfter }
  else
    let params := (ctxGet context "params").getD ""
    let paramsLoad : Except Unit (List (String × List String)) :=
      if params = "" then .ok []
      else match loadd_params fs params with
        | .ok kv => .ok [kv]
        | .error _ => .error ()
    match paramsLoad with
    | .error _ =>
      { result := .error .paramsLoadFailed, effects := [], events := preEvents,
        confirmed := none, defaultsAfter := defaultsAfter, overridesAfter := overridesAfter }
    | .ok params_kv =>
      let checkpoint_out := !((ctxGet context "live").getD "") = ""
      let models := ctxGet context "models"
      let stage : Stage := {
        name := name
        cmd := (ctxGet context "cmd").getD ""
        deps := compactList [ctxGet context "code", ctxGet context "data"]
        params := params_kv
        metrics_no_cache := compactList [ctxGet context "metrics"]
        plots_no_cache := compactList [ctxGet context "plots"]
        live := ctxGet context "live"
        outs := if checkpoint_out then [] else compactList [models]
        checkpoints := if checkpoint_out then compactList [models] else []
        force := force }
      let commitEffects :=
        [Effect.dumpStage, Effect.ignoreOuts]
          ++ (if params = "" then [] else [Effect.trackFile params])
      if interactive then
        let evs := preEvents ++ [Event.write Stream'.stdout ruleText, Event.stageReview]
        match confirmLoop script with
        | none =>
          { result := .error .blocked, effects := [], events := evs,
            confirmed := none, defaultsAfter := defaultsAfter, overridesAfter := overridesAfter }
        | some (true, _, cEvs) =>
          { result := .ok stage, effects := commitEffects, events := evs ++ cEvs,
            confirmed := some true, defaultsAfter := defaultsAfter, overridesAfter := overridesAfter }
        | some (false, _, cEvs) =>
          { result := .error .aborted, effects := [], events := evs ++ cEvs,
            confirmed := some false, defaultsAfter := defaultsAfter, overridesAfter := overridesAfter }
      else
        { result := .ok stage, effects := commitEffects, events := preEvents,
          confirmed := none, defaultsAfter := defaultsAfter, overridesAfter := overridesAfter }

/-- `init` (src line 250).  The duplicate pre-check runs first; an
interactive run then goes through `init_interactive` (whose result replaces
the defaults and which pops `cmd` from the caller's overrides), a
non-interactive run through the defaults suppression, and both finish in
`finishInit`. -/
def init (dvcfile : DvcFile) (fs : FS) (name? : Option String) (type_ : String)
    (defaults? overrides? : Option Ctx) (interactive force : Bool)
    (script : List String) : InitOutcome :=
  let name := stageName name? type_
  if !force && dvcfile.exists_ && dvcfile.stages.contains name then
    { result := .error .duplicateStage, effects := [], events := [],
      confirmed := none, defaultsAfter := defaults?, overridesAfter := overrides? }
  else
    let defaults := defaults?.getD []
    let overrides := overrides?.getD []
    let with_live := type_ == "live"
    if interactive then
      match init_interactive defaults overrides
          (some (validate_prompts_input fs)) true with_live script with
      | none =>
        { result := .error .blocked, effects := [], events := [],
          confirmed := none, defaultsAfter := defaults?,
          overridesAfter := overrides?.map (fun o => ctxErase o "cmd") }
      | some s =>
        finishInit fs name true force s.ret s.provided s.rest s.events
          defaults? (overrides?.map (fun o => ctxErase o "cmd"))
    else
      finishInit fs name false force (suppressDefaults defaults with_live) overrides
        script []
        (defaults?.map (fun d => suppressDefaults d with_live)) overrides?

/-! ## Dictionary lemmas -/

theorem ctxGet_erase (c : Ctx) (key0 k : String) :
    ctxGet (ctxErase c key0) k = if k = key0 then none else ctxGet c k := by
  induction c with
  | nil => simp [ctxErase, ctxGet]
  | cons p rest ih =>
    obtain ⟨k1, v1⟩ := p
    by_cases h1 : k1 = key0
    · subst h1
      by_cases hk : k = k1
      · subst hk; simp [ctxErase, ctxGet, ih]
      · simp [ctxErase, ctxGet, hk, ih]
    · by_cases hk : k = k1 <;> simp [ctxErase, h1, ctxGet, hk, ih]

theorem ctxHas_erase (c : Ctx) (key0 k : String) :
    ctxHas (ctxErase c key0) k = if k = key0 then false else ctxHas c k := by
  simp only [ctxHas, ctxGet_erase]
  by_cases hk : k = key0 <;> simp [hk]

theorem ctxGet_append (a b : Ctx) (k : String) :
    ctxGet (a ++ b) k =
      match ctxGet a k with
      | some v => some v
      | none => ctxGet b k := by
  induction a with
  | nil => simp [ctxGet]
  | cons p rest ih =>
    obtain ⟨k1, v1⟩ := p
    by_cases hk : k = k1 <;> simp [ctxGet, hk, ih]

theorem ctxGet_set (c : Ctx) (k0 v k : String) :
    ctxGet (ctxSet c k0 v) k = if k = k0 then some v else ctxGet c k := by
  rw [ctxSet, ctxGet_append]
  by_cases hk : k = k0
  · subst hk
    rw [ctxGet_erase]
    simp [ctxGet]
  · rw [ctxGet_erase, if_neg hk, if_neg hk]
    cases ctxGet c k <;> simp [ctxGet, hk]

theorem ctxHas_set (c : Ctx) (k0 v k : String) :
    ctxHas (ctxSet c k0 v) k = if k = k0 then true else ctxHas c k := by
  simp only [ctxHas, ctxGet_set]
  by_cases hk : k = k0 <;> simp [hk]

theorem ctxHas_merge (a b : Ctx) (k : String) :
    ctxHas (ctxMerge a b) k = (ctxHas a k || ctxHas b k) := by
  induction b generalizing a with
  | nil => simp [ctxMerge, ctxHas, ctxGet]
  | cons p rest ih =>
    obtain ⟨k1, v1⟩ := p
    show ctxHas (ctxMerge (ctxSet a k1 v1) rest) k = _
    rw [ih, ctxHas_set]
    by_cases hk : k = k1 <;> simp [ctxHas, ctxGet, hk]

/-! ## Compaction lemmas -/

theorem compactRet_mem {l : List (String × Option String)} {k : String} {v : String}
    (h : (k, v) ∈ compactRet l) : v ≠ "" := by
  induction l with
  | nil => simp [compactRet] at h
  | cons p rest ih =>
    obtain ⟨k1, o1⟩ := p
    match o1 with
    | none => exact ih (by simpa [compactRet] using h)
    | some v1 =>
      by_cases hv : v1 = ""
      · exact ih (by simpa [compactRet, hv] using h)
      · rw [compactRet, if_neg hv] at h
        rcases List.mem_cons.mp h with h' | h'
        · cases h'; exact hv
        · exact ih h'

theorem ctxHas_compactRet_not_mem {l : List (String × Option String)} {k : String}
    (h : k ∉ l.map Prod.fst) : ctxHas (compactRet l) k = false := by
  induction l with
  | nil => simp [compactRet, ctxHas, ctxGet]
  | cons p rest ih =>
    obtain ⟨k1, o1⟩ := p
    simp only [List.map_cons, List.mem_cons] at h
    push_neg at h
    obtain ⟨hk1, hrest⟩ := h
    match o1 with
    | none => exact (by simpa [compactRet] using ih hrest)
    | some v1 =>
      by_cases hv : v1 = ""
      · simpa [compactRet, hv] using ih hrest
      · rw [compactRet, if_neg hv]
        simp only [ctxHas, ctxGet, if_neg hk1]
        exact ih hrest

theorem ctxHas_compactRet_none {l : List (String × Option String)} {k : String}
    (hd : (l.map Prod.fst).Nodup) (h : (k, none) ∈ l) :
    ctxHas (compactRet l) k = false := by
  induction l with
  | nil => simp at h
  | cons p rest ih =>
    obtain ⟨k1, o1⟩ := p
    simp only [List.map_cons, List.nodup_cons] at hd
    obtain ⟨hk1, hrest⟩ := hd
    rcases List.mem_cons.mp h with h' | h'
    · injection h' with hk ho
      subst hk
      rw [← ho]
      simpa [compactRet] using ctxHas_compactRet_not_mem hk1
    · match o1 with
      | none => simpa [compactRet] using ih hrest h'
      | some v1 =>
        have hkne : k ≠ k1 := by
          intro he; subst he
          exact hk1 (List.mem_map.mpr ⟨(k, none), h', rfl⟩)
        by_cases hv : v1 = ""
        · simpa [compactRet, hv] using ih hrest h'
        · rw [compactRet, if_neg hv]
          simp only [ctxHas, ctxGet, if_neg hkne]
          exact ih hrest h'

/-! ## Event lemmas -/

theorem promptedOf_append (a b : List Event) :
    promptedOf (a ++ b) = promptedOf a ++ promptedOf b := by
  induction a with
  | nil => rfl
  | cons e rest ih => cases e <;> simp [promptedOf, ih]

theorem promptedOf_treeEvents (defaults provided : Ctx) (show_tree live : Bool) :
    promptedOf (treeEvents defaults provided show_tree live) = [] := by
  rw [treeEvents]
  split <;> rfl

/-! ## `askLoop` lemmas -/

theorem askLoop_prompt_mem {key : String} {dflt : Option String} {script : List String}
    {val : Option String} {rest : List String} {evs : List Event}
    (h : askLoop key dflt script = some (val, rest, evs)) :
    Event.prompt key ∈ evs := by
  induction script generalizing val rest evs with
  | nil => simp [askLoop] at h
  | cons v r ih =>
    rw [askLoop] at h
    split at h
    · injection h with h'; cases h'; simp
    · split at h
      · injection h with h'; cases h'; simp
      · split at h
        · cases h
        · injection h with h'; cases h'; simp

theorem askLoop_events_shape {key : String} {dflt : Option String} {script : List String}
    {val : Option String} {rest : List String} {evs : List Event}
    (h : askLoop key dflt script = some (val, rest, evs)) :
    ∀ e ∈ evs, e = Event.prompt key ∨ ∃ m, e = Event.invalidMsg m := by
  induction script generalizing val rest evs with
  | nil => simp [askLoop] at h
  | cons v r ih =>
    rw [askLoop] at h
    split at h
    · injection h with h'; cases h'
      intro e he; simp at he; subst he; exact Or.inl rfl
    · split at h
      · injection h with h'; cases h'
        intro e he; simp at he; subst he; exact Or.inl rfl
      · rename_i msg heq
        split at h
        · cases h
        · rename_i v2 r2 e2 heq2
          injection h with h'; cases h'
          intro e he
          rcases List.mem_cons.mp he with rfl | he'
          · exact Or.inl rfl
          rcases List.mem_cons.mp he' with rfl | he''
          · exact Or.inr ⟨msg, rfl⟩
          · exact ih heq2 e he''

theorem askLoop_cmd_val {dflt : Option String} {script : List String}
    {val : Option String} {rest : List String} {evs : List Event}
    (hd : ∀ d, dflt = some d → d ≠ "")
    (h : askLoop "cmd" dflt script = some (val, rest, evs)) :
    ∃ s, val = some s ∧ s ≠ "" := by
  induction script generalizing val rest evs with
  | nil => simp [askLoop] at h
  | cons v r ih =>
    rw [askLoop] at h
    split at h
    · rename_i hcond
      injection h with h'; cases h'
      obtain ⟨d, hdd⟩ := Option.isSome_iff_exists.mp hcond.2
      exact ⟨d, hdd, hd d hdd⟩
    · split at h
      · rename_i ret hret
        injection h with h'; cases h'
        rw [processResponse] at hret
        split at hret
        · cases hret
        · split at hret
          · injection hret with h''
            rename_i hne _
            exact ⟨strip v, h''.symm, hne⟩
          · split at hret
            · rename_i hcmd _; exact absurd rfl hcmd
            · rename_i hcmd _; exact absurd rfl hcmd
      · split at h
        · cases h
        · rename_i v2 r2 e2 heq2
          injection h with h'; cases h'
          exact ih heq2

/-! ## `promptOne` lemmas -/

theorem promptOne_prompt_mem {fuel : Nat} {key : String} {vf : Option VFun}
    {dflt : Option String} {script : List String}
    {val : Option String} {rest : List String} {evs : List Event}
    (h : promptOne fuel key vf dflt script = some (val, rest, evs)) :
    Event.prompt key ∈ evs := by
  induction fuel generalizing script val rest evs with
  | zero => simp [promptOne] at h
  | succ n ih =>
    rw [promptOne] at h
    split at h
    · cases h
    · rename_i val1 rest1 evs1 heq1
      split at h
      · injection h with h'; cases h'
        exact askLoop_prompt_mem heq1
      · split at h
        · injection h with h'; cases h'
          simp [askLoop_prompt_mem heq1]
        · split at h
          · cases h
          · injection h with h'; cases h'
            simp [askLoop_prompt_mem heq1]
        · cases h

theorem promptOne_some_succ (n : Nat) (key : String) (vf : VFun)
    (dflt : Option String) (script : List String) :
    promptOne (n + 1) key (some vf) dflt script =
      match askLoop key dflt script with
      | none => none
      | some (val, rest, evs) =>
        match vf key val with
        | (.ok, ws) => some (val, rest, evs ++ [Event.validatorCall key val] ++ ws)
        | (.retry msg, ws) =>
          match promptOne n key (some vf) dflt rest with
          | none => none
          | some (v2, r2, e2) =>
            some (v2, r2,
              evs ++ [Event.validatorCall key val] ++ ws ++ [Event.retryMsg msg] ++ e2)
        | (.crash, _) => none := by
  rw [promptOne]

theorem validate_params_some (fs : FS) (v : String) :
    validate_prompts_input fs "params" (some v) =
      match fs v with
      | .missing => (.retry (paramsRetryMsg v "does not exist"), [])
      | .dir => (.retry (paramsRetryMsg v "is a directory"), [])
      | .file none => (.crash, [])
      | .file (some _) => (.ok, []) := by
  simp [validate_prompts_input]

theorem validate_events_shape (fs : FS) (key : String) (value : Option String) :
    ∀ e ∈ (validate_prompts_input fs key value).2,
      ∃ m, e = Event.write Stream'.stderr m := by
  cases value with
  | none => simp [validate_prompts_input]
  | some v =>
    rw [validate_prompts_input]
    split
    · split <;> simp
    · split
      · split <;> simp
      · simp

theorem promptOne_params_loadable {fs : FS} {fuel : Nat} {dflt : Option String}
    {script : List String} {v : String} {rest : List String} {evs : List Event}
    (h : promptOne fuel "params" (some (validate_prompts_input fs)) dflt script
      = some (some v, rest, evs)) :
    ∃ ks, fs v = FSEntry.file (some ks) := by
  induction fuel generalizing script rest evs with
  | zero => simp [promptOne] at h
  | succ n ih =>
    rw [promptOne_some_succ] at h
    split at h
    · cases h
    · rename_i val1 rest1 evs1 heq1
      split at h
      · rename_i ws hok
        injection h with h'
        injection h' with hval h'
        subst hval
        rw [validate_params_some] at hok
        split at hok
        · simp at hok
        · simp at hok
        · simp at hok
        · rename_i ks heq; exact ⟨ks, heq⟩
      · rename_i msg ws hretry
        split at h
        · cases h
        · rename_i v2 r2 e2 heq2
          injection h with h'
          injection h' with hval h'
          subst hval
          exact ih heq2
      · cases h

theorem promptOne_cmd_validatorCalls {fs : FS} {fuel : Nat} {dflt : Option String}
    {script : List String} {val : Option String} {rest : List String} {evs : List Event}
    (hd : ∀ d, dflt = some d → d ≠ "")
    (h : promptOne fuel "cmd" (some (validate_prompts_input fs)) dflt script
      = some (val, rest, evs)) :
    ∀ x, Event.validatorCall "cmd" x ∈ evs → ∃ s, x = some s ∧ s ≠ "" := by
  induction fuel generalizing script val rest evs with
  | zero => simp [promptOne] at h
  | succ n ih =>
    rw [promptOne_some_succ] at h
    split at h
    · cases h
    · rename_i val1 rest1 evs1 heq1
      split at h
      · rename_i ws hok
        injection h with h'; cases h'
        intro x hx
        rcases List.mem_append.mp hx with hx' | hx'
        rcases List.mem_append.mp hx' with hx'' | hx''
        · rcases askLoop_events_shape heq1 _ hx'' with he | ⟨m, he⟩ <;> cases he
        · simp at hx''
          subst hx''
          exact askLoop_cmd_val hd heq1
        · have hx3 : Event.validatorCall "cmd" x ∈ (validate_prompts_input fs "cmd" val).2 := by
            rw [hok]; exact hx'
          obtain ⟨m, he⟩ := validate_events_shape fs "cmd" val _ hx3; cases he
      · rename_i msg ws hretry
        split at h
        · cases h
        · rename_i v2 r2 e2 heq2
          injection h with h'; cases h'
          intro x hx
          rcases List.mem_append.mp hx with hx' | hx'
          rcases List.mem_append.mp hx' with hx'' | hx''
          rcases List.mem_append.mp hx'' with h3 | h3
          rcases List.mem_append.mp h3 with h4 | h4
          · rcases askLoop_events_shape heq1 _ h4 with he | ⟨m, he⟩ <;> cases he
          · simp at h4
            subst h4
            exact askLoop_cmd_val hd heq1
          · have hx3 : Event.validatorCall "cmd" x ∈ (validate_prompts_input fs "cmd" val1).2 := by
              rw [hretry]; exact h3
            obtain ⟨m, he⟩ := validate_events_shape fs "cmd" val1 _ hx3; cases he
          · simp at hx''
          · exact ih heq2 x hx'
      · cases h

theorem init_interactive_ret_values {defaults provided0 : Ctx} {vf : Option VFun}
    {show_tree live : Bool} {script : List String} {s : ISession}
    (h : init_interactive defaults provided0 vf show_tree live script = some s) :
    ∀ k v, (k, v) ∈ s.ret → v ≠ "" := by
  rw [init_interactive] at h
  split at h
  · injection h with h'; subst h'
    intro k v hkv; simp at hkv
  · split at h
    · cases h
    · rename_i cmdRet script1 cmdEvs heq1
      split at h
      · cases h
      · rename_i primRet script2 primEvs heq2
        split at h
        · cases h
        · rename_i secRet script3 secEvs heq3
          injection h with h'; subst h'
          intro k v hkv
          exact compactRet_mem hkv

theorem ctxHas_erase_cmd {provided : Ctx} {k : String} (hk : ¬ k = "cmd")
    (h : ctxHas provided k = true) : ctxHas (ctxErase provided "cmd") k = true := by
  rw [ctxHas_erase, if_neg hk]; exact h

theorem primaryKeys_nil {p : Ctx}
    (h1 : ctxHas p "code" = true) (h2 : ctxHas p "data" = true)
    (h3 : ctxHas p "models" = true) (h4 : ctxHas p "params" = true) :
    primaryKeys p = [] := by
  simp [primaryKeys, List.filter_cons, h1, h2, h3, h4]

theorem secondaryKeys_nil_live {p : Ctx} (h : ctxHas p "live" = true) :
    secondaryKeys p true = [] := by
  simp [secondaryKeys, List.filter_cons, h]

theorem secondaryKeys_nil_nonlive {p : Ctx}
    (h1 : ctxHas p "metrics" = true) (h2 : ctxHas p "plots" = true) :
    secondaryKeys p false = [] := by
  simp [secondaryKeys, List.filter_cons, h1, h2]

/-- C1, amended: when the caller-supplied overrides already contain `cmd`,
every primary key, and every secondary key of the active output mode, the
interactive session issues no prompts, but it does not return an empty
mapping: it returns the single-entry mapping carrying the supplied command
(empty only in the degenerate case of an empty-string command). -/
theorem claim1_fully_provided_session
    (defaults provided : Ctx) (validator : Option VFun) (show_tree live : Bool)
    (script : List String) (c : String)
    (hcmd : ctxGet provided "cmd" = some c)
    (hcode : ctxHas provided "code" = true) (hdata : ctxHas provided "data" = true)
    (hmodels : ctxHas provided "models" = true) (hparams : ctxHas provided "params" = true)
    (hlive : live = true → ctxHas provided "live" = true)
    (hmetrics : live = false → ctxHas provided "metrics" = true)
    (hplots : live = false → ctxHas provided "plots" = true) :
    ∃ s, init_interactive defaults provided validator show_tree live script = some s
      ∧ promptedOf s.events = []
      ∧ s.ret = (if c = "" then [] else [("cmd", c)]) := by
  have hprim : primaryKeys (ctxErase provided "cmd") = [] :=
    primaryKeys_nil (ctxHas_erase_cmd (by decide) hcode)
      (ctxHas_erase_cmd (by decide) hdata) (ctxHas_erase_cmd (by decide) hmodels)
      (ctxHas_erase_cmd (by decide) hparams)
  have hsec : secondaryKeys (ctxErase provided "cmd") live = [] := by
    cases live
    · exact secondaryKeys_nil_nonlive (ctxHas_erase_cmd (by decide) (hmetrics rfl))
        (ctxHas_erase_cmd (by decide) (hplots rfl))
    · exact secondaryKeys_nil_live (ctxHas_erase_cmd (by decide) (hlive rfl))
  by_cases hc : c = ""
  · refine ⟨⟨[], ctxErase provided "cmd", script, []⟩, ?_, rfl, ?_⟩
    · simp only [init_interactive]
      rw [hcmd, hprim, hsec]
      simp [hc]
    · simp [hc]
  · simp only [init_interactive]
    rw [hcmd, hprim, hsec]
    rw [if_neg (by simp [hc])]
    rw [cmdStep, if_neg (by simp [hc])]
    simp only [promptsMany]
    refine ⟨_, rfl, ?_, ?_⟩
    · simp [promptedOf_append, promptedOf, promptedOf_treeEvents]
    · simp [compactRet, hc]

/-- C1, counterexample: with every key (including a non-empty `cmd`)
supplied in the overrides, the session returns `{cmd: ...}`, not an empty
mapping (it does issue no prompts). -/
theorem claim1_counterexample :
    (init_interactive []
        [("cmd", "python train.py"), ("code", "src"), ("data", "data"), ("models", "m"),
         ("params", "p"), ("metrics", "x"), ("plots", "y")]
        none false false []).map ISession.ret = some [("cmd", "python train.py")]
    ∧ (init_interactive []
        [("cmd", "python train.py"), ("code", "src"), ("data", "data"), ("models", "m"),
         ("params", "p"), ("metrics", "x"), ("plots", "y")]
        none false false []).map (fun s => promptedOf s.events) = some [] := by
  constructor <;> rfl

/-- C1, witness: the amended theorem applied at a concrete fully-supplied
overrides mapping. -/
theorem claim1_witness :
    ∃ s, init_interactive []
        [("cmd", "python train.py"), ("code", "src"), ("data", "data"), ("models", "m"),
         ("params", "p"), ("metrics", "x"), ("plots", "y")]
        none false false [] = some s
      ∧ promptedOf s.events = []
      ∧ s.ret = [("cmd", "python train.py")] := by
  obtain ⟨s, h1, h2, h3⟩ := claim1_fully_provided_session []
    [("cmd", "python train.py"), ("code", "src"), ("data", "data"), ("models", "m"),
     ("params", "p"), ("metrics", "x"), ("plots", "y")]
    none false false [] "python train.py" (by decide) (by decide) (by decide) (by decide)
    (by decide) (fun h => by cases h) (fun _ => by decide) (fun _ => by decide)
  exact ⟨s, h1, h2, by simpa using h3⟩

/-- C2, counterexample: with overrides `{cmd, code, data}`, type `default`,
interactive, and no `params`/`models`/`metrics`/`plots` supplied, the
wizard prompts for `models`, `params`, `metrics`, `plots` — `params` is
asked too, so the prompted keys are not `models`, `metrics`, `plots`. -/
theorem claim2_counterexample :
    promptedOf (init ⟨false, []⟩ (fun _ => FSEntry.missing) none "default" (some [])
        (some [("cmd", "python train.py"), ("code", "src"), ("data", "data")]) true false
        ["model.pkl", "n", "metrics.json", "plots.csv", ""]).events
      = ["models", "params", "metrics", "plots"]
    ∧ promptedOf (init ⟨false, []⟩ (fun _ => FSEntry.missing) none "default" (some [])
        (some [("cmd", "python train.py"), ("code", "src"), ("data", "data")]) true false
        ["model.pkl", "n", "metrics.json", "plots.csv", ""]).events
      ≠ ["models", "metrics", "plots"] := by
  exact ⟨rfl, by decide⟩

/-- C2, amended: in that scenario the wizard prompts exactly for `models`,
`params`, `metrics`, `plots`, in that order; with `params` skipped and the
confirmation accepted it commits a stage named `default` with dependencies
`src`, `data` and no params. -/
theorem claim2_example_prompts :
    promptedOf (init ⟨false, []⟩ (fun _ => FSEntry.missing) none "default" (some [])
        (some [("cmd", "python train.py"), ("code", "src"), ("data", "data")]) true false
        ["model.pkl", "n", "metrics.json", "plots.csv", ""]).events
      = ["models", "params", "metrics", "plots"]
    ∧ (init ⟨false, []⟩ (fun _ => FSEntry.missing) none "default" (some [])
        (some [("cmd", "python train.py"), ("code", "src"), ("data", "data")]) true false
        ["model.pkl", "n", "metrics.json", "plots.csv", ""]).result
      = .ok { name := "default", cmd := "python train.py", deps := ["src", "data"],
              params := [], metrics_no_cache := ["metrics.json"],
              plots_no_cache := ["plots.csv"], live := none, outs := ["model.pkl"],
              checkpoints := [], force := false }
    ∧ (init ⟨false, []⟩ (fun _ => FSEntry.missing) none "default" (some [])
        (some [("cmd", "python train.py"), ("code", "src"), ("data", "data")]) true false
        ["model.pkl", "n", "metrics.json", "plots.csv", ""]).effects
      = [Effect.dumpStage, Effect.ignoreOuts] := by
  exact ⟨rfl, rfl, rfl⟩

/-- C3 (code bug): the wizard writes three lines to standard output in an
interactive run — the blank line after the `cmd` prompt (src line 203), the
"Enter the paths ..." instruction (src line 207) and the rule preceding the
serialized-stage review (src line 337) all go through `ui.write`, while the
claim (and the rest of the wizard's output) requires the error stream. -/
theorem claim3_stdout_leak :
    Event.write Stream'.stdout enterPathsMsg
      ∈ (init ⟨false, []⟩ (fun _ => FSEntry.missing) none "default" (some []) (some [])
          true false ["train", "n", "n", "n", "n", "n", "n", "n"]).events
    ∧ Event.write Stream'.stdout ""
      ∈ (init ⟨false, []⟩ (fun _ => FSEntry.missing) none "default" (some []) (some [])
          true false ["train", "n", "n", "n", "n", "n", "n", "n"]).events
    ∧ Event.write Stream'.stdout ruleText
      ∈ (init ⟨false, []⟩ (fun _ => FSEntry.missing) none "default" (some []) (some [])
          true false ["train", "n", "n", "n", "n", "n", "n", "n"]).events := by
  refine ⟨?_, ?_, ?_⟩ <;> decide

/-! ## `finishInit` facts -/

theorem finishInit_confirm_false (fs : FS) (name : String) (interactive force : Bool)
    (defaults2 overrides2 : Ctx) (script : List String) (preEvents : List Event)
    (dA oA : Option Ctx) :
    (finishInit fs name interactive force defaults2 overrides2 script preEvents dA oA).confirmed
      = some false →
    (finishInit fs name interactive force defaults2 overrides2 script preEvents dA oA).result
      = Except.error InitError.aborted
    ∧ (finishInit fs name interactive force defaults2 overrides2 script preEvents dA oA).effects
      = [] := by
  simp only [finishInit]
  repeat' split
  all_goals intro h
  all_goals simp at h
  all_goals exact ⟨rfl, rfl⟩

theorem finishInit_ne_dup (fs : FS) (name : String) (interactive force : Bool)
    (defaults2 overrides2 : Ctx) (script : List String) (preEvents : List Event)
    (dA oA : Option Ctx) :
    (finishInit fs name interactive force defaults2 overrides2 script preEvents dA oA).result
      ≠ Except.error InitError.duplicateStage := by
  simp only [finishInit]
  repeat' split
  all_goals simp

theorem finishInit_defaultsAfter (fs : FS) (name : String) (interactive force : Bool)
    (defaults2 overrides2 : Ctx) (script : List String) (preEvents : List Event)
    (dA oA : Option Ctx) :
    (finishInit fs name interactive force defaults2 overrides2 script preEvents dA oA).defaultsAfter
      = dA := by
  simp only [finishInit]
  repeat' split
  all_goals rfl

theorem finishInit_overridesAfter (fs : FS) (name : String) (interactive force : Bool)
    (defaults2 overrides2 : Ctx) (script : List String) (preEvents : List Event)
    (dA oA : Option Ctx) :
    (finishInit fs name interactive force defaults2 overrides2 script preEvents dA oA).overridesAfter
      = oA := by
  simp only [finishInit]
  repeat' split
  all_goals rfl

/-- C4: in every invocation in which the operator answers the final
confirmation with no, `init` raises the operator-cancellation error
(`DvcException("Aborting ...")`) and performs none of the commit side
effects — the pipeline file is not written, the outputs are not marked
ignorable, and no file is registered with version control (the effect list
is empty). -/
theorem claim4_decline_aborts (dvcfile : DvcFile) (fs : FS) (name? : Option String)
    (type_ : String) (defaults? overrides? : Option Ctx) (interactive force : Bool)
    (script : List String)
    (h : (init dvcfile fs name? type_ defaults? overrides? interactive force script).confirmed
      = some false) :
    (init dvcfile fs name? type_ defaults? overrides? interactive force script).result
      = Except.error InitError.aborted
    ∧ (init dvcfile fs name? type_ defaults? overrides? interactive force script).effects
      = [] := by
  revert h
  simp only [init]
  repeat' split
  all_goals intro h
  any_goals exact finishInit_confirm_false _ _ _ _ _ _ _ _ _ _ h
  all_goals simp at h

/-- C4, witness: a concrete interactive run whose confirmation is answered
no aborts with no effects. -/
theorem claim4_witness :
    (init ⟨false, []⟩ (fun _ => FSEntry.missing) none "default" (some [])
        (some [("cmd", "c"), ("code", "s"), ("data", "d"), ("models", "m")]) true false
        ["n", "n", "n", "n"]).result = Except.error InitError.aborted
    ∧ (init ⟨false, []⟩ (fun _ => FSEntry.missing) none "default" (some [])
        (some [("cmd", "c"), ("code", "s"), ("data", "d"), ("models", "m")]) true false
        ["n", "n", "n", "n"]).effects = [] :=
  claim4_decline_aborts ⟨false, []⟩ (fun _ => FSEntry.missing) none "default" (some [])
    (some [("cmd", "c"), ("code", "s"), ("data", "d"), ("models", "m")]) true false
    ["n", "n", "n", "n"] (by decide)

/-- C5: exactly one of the pair `{metrics, plots}` or the singleton
`{live}` participates in the secondary question group, never both; and in
the non-interactive merged context, `metrics`/`plots` are present iff the
overrides carry them when the output mode is live, and symmetrically for
`live` when it is not. -/
theorem claim5_secondary_exclusive :
    (∀ p : Ctx, (secondaryKeys p true).contains "metrics" = false
      ∧ (secondaryKeys p true).contains "plots" = false
      ∧ (secondaryKeys p false).contains "live" = false)
    ∧ (∀ d ov : Ctx,
        ctxHas (ctxMerge (suppressDefaults d true) ov) "metrics" = ctxHas ov "metrics"
        ∧ ctxHas (ctxMerge (suppressDefaults d true) ov) "plots" = ctxHas ov "plots"
        ∧ ctxHas (ctxMerge (suppressDefaults d false) ov) "live" = ctxHas ov "live") := by
  constructor
  · intro p
    refine ⟨?_, ?_, ?_⟩
    · cases hl : ctxHas p "live" <;> simp [secondaryKeys, List.filter_cons, hl]
    · cases hl : ctxHas p "live" <;> simp [secondaryKeys, List.filter_cons, hl]
    · cases hm : ctxHas p "metrics" <;> cases hp : ctxHas p "plots" <;>
        simp [secondaryKeys, List.filter_cons, hm, hp]
  · intro d ov
    refine ⟨?_, ?_, ?_⟩ <;>
      simp [ctxHas_merge, suppressDefaults, ctxHas_erase]

/-- C9: `init` raises the duplicate-stage error iff a stage with the
requested name already exists in the pipeline file and overwrite was not
requested; with `force` or no same-named stage the pre-check passes. -/
theorem claim9_duplicate_stage (dvcfile : DvcFile) (fs : FS) (name? : Option String)
    (type_ : String) (defaults? overrides? : Option Ctx) (interactive force : Bool)
    (script : List String) :
    (init dvcfile fs name? type_ defaults? overrides? interactive force script).result
        = Except.error InitError.duplicateStage
      ↔ (force = false ∧ dvcfile.exists_ = true
          ∧ dvcfile.stages.contains (stageName name? type_) = true) := by
  constructor
  · intro h
    by_cases hc : (!force && dvcfile.exists_
        && dvcfile.stages.contains (stageName name? type_)) = true
    · simp only [Bool.and_eq_true, Bool.not_eq_true'] at hc
      exact ⟨hc.1.1, hc.1.2, hc.2⟩
    · exfalso
      simp only [init] at h
      rw [if_neg hc] at h
      repeat' split at h
      all_goals first
        | simp at h
        | exact finishInit_ne_dup _ _ _ _ _ _ _ _ _ _ h
  · intro hrhs
    have hc : (!force && dvcfile.exists_
        && dvcfile.stages.contains (stageName name? type_)) = true := by
      rw [hrhs.1, hrhs.2.1, hrhs.2.2]
      rfl
    simp only [init]
    rw [if_pos hc]

/-- C10, counterexample: an invocation that fails the duplicate pre-check
returns with the caller-supplied defaults untouched — `live` is not removed
from the caller's non-interactive defaults mapping. -/
theorem claim10_counterexample :
    (init ⟨true, ["default"]⟩ (fun _ => FSEntry.missing) none "default"
        (some [("live", "x")]) (some [("cmd", "c")]) false false []).result
      = Except.error InitError.duplicateStage
    ∧ (init ⟨true, ["default"]⟩ (fun _ => FSEntry.missing) none "default"
        (some [("live", "x")]) (some [("cmd", "c")]) false false []).defaultsAfter
      = some [("live", "x")] := by
  exact ⟨rfl, rfl⟩

/-- C10, amended: in every invocation that passes the duplicate-stage
pre-check, `init` mutates the caller-owned argument mappings: in an
interactive invocation `cmd` is removed from the caller's overrides
mapping, and in a non-interactive one `metrics`/`plots` (live mode) or
`live` (otherwise) are removed from the caller's defaults mapping. -/
theorem claim10_caller_mutation (dvcfile : DvcFile) (fs : FS) (name? : Option String)
    (type_ : String) (defaults? overrides? : Option Ctx) (interactive force : Bool)
    (script : List String)
    (h : (init dvcfile fs name? type_ defaults? overrides? interactive force script).result
      ≠ Except.error InitError.duplicateStage) :
    (init dvcfile fs name? type_ defaults? overrides? interactive force script).overridesAfter
      = (if interactive then overrides?.map (fun o => ctxErase o "cmd") else overrides?)
    ∧ (init dvcfile fs name? type_ defaults? overrides? interactive force script).defaultsAfter
      = (if interactive then defaults?
         else defaults?.map (fun d => suppressDefaults d (type_ == "live"))) := by
  revert h
  simp only [init]
  repeat' split
  all_goals intro h
  all_goals simp_all [finishInit_overridesAfter, finishInit_defaultsAfter]

/-- C10, witness: the amended theorem applied to one interactive and one
non-interactive concrete invocation. -/
theorem claim10_witness :
    (init ⟨false, []⟩ (fun _ => FSEntry.missing) none "default"
        (some [("live", "x"), ("code", "c")]) (some [("cmd", "c")]) false false []).defaultsAfter
      = some [("code", "c")]
    ∧ (init ⟨false, []⟩ (fun _ => FSEntry.missing) none "default" (some [])
        (some [("cmd", "c"), ("code", "s"), ("data", "d"), ("models", "m")]) true false
        ["n", "n", "n", ""]).overridesAfter
      = some [("code", "s"), ("data", "d"), ("models", "m")] := by
  constructor
  · have h := (claim10_caller_mutation ⟨false, []⟩ (fun _ => FSEntry.missing) none "default"
      (some [("live", "x"), ("code", "c")]) (some [("cmd", "c")]) false false []
      (by decide)).2
    rw [h]; rfl
  · have h := (claim10_caller_mutation ⟨false, []⟩ (fun _ => FSEntry.missing) none "default"
      (some []) (some [("cmd", "c"), ("code", "s"), ("data", "d"), ("models", "m")]) true false
      ["n", "n", "n", ""] (by decide)).1
    rw [h]; rfl

/-! ## Prompt-count lemmas -/

theorem countPrompt_cons (key : String) (e : Event) (l : List Event) :
    countPrompt key (e :: l)
      = countPrompt key l + (if e = Event.prompt key then 1 else 0) := by
  by_cases he : e = Event.prompt key <;>
    simp [countPrompt, List.filter_cons, he, Nat.add_comm]

theorem countPrompt_append (key : String) (a b : List Event) :
    countPrompt key (a ++ b) = countPrompt key a + countPrompt key b := by
  simp [countPrompt, List.filter_append]

theorem countPrompt_pos {key : String} {l : List Event}
    (h : Event.prompt key ∈ l) : 1 ≤ countPrompt key l := by
  induction l with
  | nil => simp at h
  | cons e rest ih =>
    rw [countPrompt_cons]
    rcases List.mem_cons.mp h with rfl | h'
    · simp
    · have := ih h'
      omega

/-- C6: a prompted `params` answer naming a missing file or a directory is
a retry condition — the reason string is "does not exist" for a missing
file and "is a directory" for a directory, the same key is rendered again
(at least two `params` prompts appear in the trace), and a `params` value
is only ever accepted when it names a loadable file. -/
theorem claim6_params_validation (fs : FS) :
    (∀ v : String, fs v = FSEntry.missing →
      validate_prompts_input fs "params" (some v)
        = (VResult.retry (paramsRetryMsg v "does not exist"), []))
    ∧ (∀ v : String, fs v = FSEntry.dir →
      validate_prompts_input fs "params" (some v)
        = (VResult.retry (paramsRetryMsg v "is a directory"), []))
    ∧ (∀ (fuel : Nat) (dflt : Option String) (script rest : List String)
        (v : String) (evs : List Event),
        promptOne fuel "params" (some (validate_prompts_input fs)) dflt script
          = some (some v, rest, evs) →
        ∃ ks, fs v = FSEntry.file (some ks))
    ∧ (∀ (n : Nat) (dflt : Option String) (v : String) (rest : List String)
        (val : Option String) (r2 : List String) (evs : List Event),
        strip v ≠ "" → strip v ≠ "n" →
        promptOne (n + 1) "params" (some (validate_prompts_input fs)) dflt (v :: rest)
          = some (val, r2, evs) →
        (fs (strip v) = FSEntry.missing →
          Event.retryMsg (paramsRetryMsg (strip v) "does not exist") ∈ evs
          ∧ 2 ≤ countPrompt "params" evs)
        ∧ (fs (strip v) = FSEntry.dir →
          Event.retryMsg (paramsRetryMsg (strip v) "is a directory") ∈ evs
          ∧ 2 ≤ countPrompt "params" evs)) := by
  refine ⟨?_, ?_, ?_, ?_⟩
  · intro v hm; rw [validate_params_some, hm]
  · intro v hm; rw [validate_params_some, hm]
  · intro fuel dflt script rest v evs h
    exact promptOne_params_loadable h
  · intro n dflt v rest val r2 evs h1 h2 h
    have hv : v ≠ "" := fun he => h1 (by rw [he]; rfl)
    have hpr : processResponse "params" v = Except.ok (some (strip v)) := by
      simp only [processResponse]
      rw [if_neg h1, if_neg (by decide), if_neg h2]
    have hask : askLoop "params" dflt (v :: rest)
        = some (some (strip v), rest, [Event.prompt "params"]) := by
      rw [askLoop, if_neg (fun hc => hv hc.1), hpr]
    constructor
    · intro hm
      have hval : validate_prompts_input fs "params" (some (strip v))
          = (VResult.retry (paramsRetryMsg (strip v) "does not exist"), []) := by
        rw [validate_params_some, hm]
      rw [promptOne_some_succ] at h
      simp only [hask, hval] at h
      split at h
      · cases h
      · rename_i v2 r2' e2 heq2
        injection h with h'
        injection h' with hval2 h'
        injection h' with hr2 hevs
        subst hevs
        have hp2 := promptOne_prompt_mem heq2
        refine ⟨by simp, ?_⟩
        have hc1 := countPrompt_pos hp2
        simp [countPrompt_append, countPrompt_cons]
        omega
    · intro hm
      have hval : validate_prompts_input fs "params" (some (strip v))
          = (VResult.retry (paramsRetryMsg (strip v) "is a directory"), []) := by
        rw [validate_params_some, hm]
      rw [promptOne_some_succ] at h
      simp only [hask, hval] at h
      split at h
      · cases h
      · rename_i v2 r2' e2 heq2
        injection h with h'
        injection h' with hval2 h'
        injection h' with hr2 hevs
        subst hevs
        have hp2 := promptOne_prompt_mem heq2
        refine ⟨by simp, ?_⟩
        have hc1 := countPrompt_pos hp2
        simp [countPrompt_append, countPrompt_cons]
        omega

/-- C6, witness: the validation theorem applied on a concrete filesystem —
a missing path and a directory produce the two retry reasons, an accepted
run names a loadable file, and a rejected first answer leads to a visible
retry and a second `params` prompt. -/
theorem claim6_witness :
    validate_prompts_input
        (fun p => if p = "p.yaml" then FSEntry.file (some ["lr"])
          else if p = "d" then FSEntry.dir else FSEntry.missing)
        "params" (some "nope")
      = (VResult.retry (paramsRetryMsg "nope" "does not exist"), [])
    ∧ validate_prompts_input
        (fun p => if p = "p.yaml" then FSEntry.file (some ["lr"])
          else if p = "d" then FSEntry.dir else FSEntry.missing)
        "params" (some "d")
      = (VResult.retry (paramsRetryMsg "d" "is a directory"), [])
    ∧ (∃ ks, (fun p => if p = "p.yaml" then FSEntry.file (some ["lr"])
          else if p = "d" then FSEntry.dir else FSEntry.missing) "p.yaml"
        = FSEntry.file (some ks))
    ∧ (Event.retryMsg (paramsRetryMsg "nope" "does not exist")
        ∈ [Event.prompt "params",
           Event.validatorCall "params" (some "nope"),
           Event.retryMsg (paramsRetryMsg "nope" "does not exist"),
           Event.prompt "params",
           Event.validatorCall "params" (some "p.yaml")]
      ∧ 2 ≤ countPrompt "params"
          [Event.prompt "params",
           Event.validatorCall "params" (some "nope"),
           Event.retryMsg (paramsRetryMsg "nope" "does not exist"),
           Event.prompt "params",
           Event.validatorCall "params" (some "p.yaml")]) := by
  refine ⟨?_, ?_, ?_, ?_⟩
  · exact (claim6_params_validation _).1 "nope" (by decide)
  · exact (claim6_params_validation _).2.1 "d" (by decide)
  · exact (claim6_params_validation
      (fun p => if p = "p.yaml" then FSEntry.file (some ["lr"])
        else if p = "d" then FSEntry.dir else FSEntry.missing)).2.2.1
      2 none ["p.yaml"] [] "p.yaml"
      [Event.prompt "params", Event.validatorCall "params" (some "p.yaml")] rfl
  · exact ((claim6_params_validation
      (fun p => if p = "p.yaml" then FSEntry.file (some ["lr"])
        else if p = "d" then FSEntry.dir else FSEntry.missing)).2.2.2
      1 none "nope" ["p.yaml"] (some "p.yaml") []
      [Event.prompt "params",
       Event.validatorCall "params" (some "nope"),
       Event.retryMsg (paramsRetryMsg "nope" "does not exist"),
       Event.prompt "params",
       Event.validatorCall "params" (some "p.yaml")]
      (by decide) (by decide) rfl).1 (by decide)

/-- C7, counterexample: a `cmd` prompt with a supplied default `"run"` and
an empty operator response — the empty response is accepted (it yields the
default), there is no re-prompt and no "Response required" message, so the
claim's unconditional re-prompt behaviour fails. -/
theorem claim7_counterexample :
    askLoop "cmd" (some "run") [""] = some (some "run", [], [Event.prompt "cmd"])
    ∧ Event.invalidMsg requiredMsg ∉ [Event.prompt "cmd"] := by
  exact ⟨rfl, by decide⟩

/-- C7, amended: when the `cmd` prompt has no default, an empty (or
whitespace-only) response is never accepted — it re-prompts after a
"Response required" message (at least two `cmd` prompts are rendered)
without consulting the custom validator on it, and the value finally
returned is a non-empty string; with a non-empty default, an empty response
is accepted as that default and the final value is still non-empty.  The
custom validator is only ever consulted on non-empty values. -/
theorem claim7_required_cmd (fs : FS) :
    (∀ (dflt : Option String) (v : String) (rest : List String)
        (val : Option String) (r : List String) (evs : List Event),
        strip v = "" → (dflt = none ∨ v ≠ "") →
        askLoop "cmd" dflt (v :: rest) = some (val, r, evs) →
        Event.invalidMsg requiredMsg ∈ evs ∧ 2 ≤ countPrompt "cmd" evs)
    ∧ (∀ (dflt : Option String) (script : List String)
        (val : Option String) (r : List String) (evs : List Event),
        (∀ d, dflt = some d → d ≠ "") →
        askLoop "cmd" dflt script = some (val, r, evs) →
        ∃ s, val = some s ∧ s ≠ "")
    ∧ (∀ (fuel : Nat) (dflt : Option String) (script : List String)
        (val : Option String) (r : List String) (evs : List Event),
        (∀ d, dflt = some d → d ≠ "") →
        promptOne fuel "cmd" (some (validate_prompts_input fs)) dflt script
          = some (val, r, evs) →
        ∀ x, Event.validatorCall "cmd" x ∈ evs → ∃ s, x = some s ∧ s ≠ "") := by
  refine ⟨?_, ?_, ?_⟩
  · intro dflt v rest val r evs h1 h2 h
    have hpr : processResponse "cmd" v = Except.error requiredMsg := by
      simp only [processResponse]
      rw [if_pos h1]
    have hcond : ¬(v = "" ∧ dflt.isSome = true) := by
      intro hc
      rcases h2 with hn | hv
      · rw [hn] at hc; exact absurd hc.2 (by decide)
      · exact hv hc.1
    rw [askLoop, if_neg hcond] at h
    simp only [hpr] at h
    split at h
    · cases h
    · rename_i v2 r2 e2 heq2
      injection h with h'
      injection h' with hval h'
      injection h' with hr hevs
      subst hevs
      have hp2 := askLoop_prompt_mem heq2
      have hc1 := countPrompt_pos hp2
      refine ⟨by simp, ?_⟩
      simp [countPrompt_cons]
      omega
  · intro dflt script val r evs hd h
    exact askLoop_cmd_val hd h
  · intro fuel dflt script val r evs hd h
    exact promptOne_cmd_validatorCalls hd h

/-- C7, witness: the amended theorem applied at a concrete `cmd` prompt
whose first response is empty and second is `"train"`. -/
theorem claim7_witness :
    (Event.invalidMsg requiredMsg
        ∈ [Event.prompt "cmd", Event.invalidMsg requiredMsg, Event.prompt "cmd"]
      ∧ 2 ≤ countPrompt "cmd"
          [Event.prompt "cmd", Event.invalidMsg requiredMsg, Event.prompt "cmd"])
    ∧ (∃ s, (some "train" : Option String) = some s ∧ s ≠ "")
    ∧ (∀ x, Event.validatorCall "cmd" x
        ∈ [Event.prompt "cmd", Event.invalidMsg requiredMsg, Event.prompt "cmd",
           Event.validatorCall "cmd" (some "train")]
        → ∃ s, x = some s ∧ s ≠ "") := by
  refine ⟨?_, ?_, ?_⟩
  · exact (claim7_required_cmd (fun _ => FSEntry.missing)).1 none "" ["train"]
      (some "train") [] [Event.prompt "cmd", Event.invalidMsg requiredMsg, Event.prompt "cmd"]
      rfl (Or.inl rfl) rfl
  · exact (claim7_required_cmd (fun _ => FSEntry.missing)).2.1 none ["", "train"]
      (some "train") [] [Event.prompt "cmd", Event.invalidMsg requiredMsg, Event.prompt "cmd"]
      (fun d hd => by cases hd) rfl
  · exact (claim7_required_cmd (fun _ => FSEntry.missing)).2.2 2 none ["", "train"]
      (some "train") []
      [Event.prompt "cmd", Event.invalidMsg requiredMsg, Event.prompt "cmd",
       Event.validatorCall "cmd" (some "train")]
      (fun d hd => by cases hd) rfl

/-- C8: a skippable key answered with the literal sentinel `"n"` yields an
absent value instead of the string `"n"`; an absent answer is pruned by the
compaction, and every value in the mapping the interactive session finally
returns is a non-empty string. -/
theorem claim8_sentinel_skip :
    (∀ (key : String) (dflt : Option String) (v : String) (rest : List String),
        key ≠ "cmd" → strip v = "n" →
        askLoop key dflt (v :: rest) = some (none, rest, [Event.prompt key]))
    ∧ (∀ (pre : List (String × Option String)) (k : String),
        (pre.map Prod.fst).Nodup → (k, none) ∈ pre →
        ctxHas (compactRet pre) k = false)
    ∧ (∀ (defaults provided0 : Ctx) (vf : Option VFun) (st live : Bool)
        (script : List String) (s : ISession),
        init_interactive defaults provided0 vf st live script = some s →
        ∀ k v, (k, v) ∈ s.ret → v ≠ "") := by
  refine ⟨?_, ?_, ?_⟩
  · intro key dflt v rest hkey hv
    have hvne : v ≠ "" := fun he => by
      rw [he] at hv
      exact absurd hv (by decide)
    have hpr : processResponse key v = Except.ok none := by
      simp only [processResponse]
      rw [if_neg (by rw [hv]; decide), if_neg hkey, if_pos hv]
    rw [askLoop, if_neg (fun hc => hvne hc.1), hpr]
  · exact fun pre k hd hm => ctxHas_compactRet_none hd hm
  · exact fun _ _ _ _ _ _ _ h => init_interactive_ret_values h

/-- C8, witness: a concrete `models` prompt answered `"n"` yields an absent
value; a concrete pre-compaction store with an absent `params` drops the
key; and the value of `cmd` in the result of a concrete session (every
other key skipped with the sentinel) is non-empty. -/
theorem claim8_witness :
    askLoop "models" none ["n"] = some (none, [], [Event.prompt "models"])
    ∧ ctxHas (compactRet [("params", none), ("metrics", some "m.json")]) "params" = false
    ∧ "c" ≠ "" := by
  refine ⟨?_, ?_, ?_⟩
  · exact claim8_sentinel_skip.1 "models" none "n" [] (by decide) (by decide)
  · exact claim8_sentinel_skip.2.1 [("params", none), ("metrics", some "m.json")] "params"
      (by decide) (by decide)
  · exact claim8_sentinel_skip.2.2 [] [("cmd", "c")] none false false
      ["n", "n", "n", "n", "n", "n"] _ rfl "cmd" "c" (by decide)

end Dvc
